import Mathlib

/-!
Verification of the signal-aggregation core of `pulumi-signal-waiter`.

The embedding models `WaitForSignalProvider.create` (the SQS polling loop)
and the `SignalWaiter` constructor validation from the TypeScript source.
The environment (queue service plus wall clock) is represented by a finite
trace of `PollEvent`s, one per loop iteration: either the receive call
returns a list of messages, or it throws with an error message.  Each event
carries the wall-clock duration (in ms) its iteration consumed, so the
`Date.now()` reads of the source become an explicit clock threaded through
the loop.  Outgoing queue commands (receive requests, batched deletes) are
recorded in ghost logs so that theorems can speak about what was issued.
-/

/-- JS `x || d` for natural-number values: `0` is falsy and is replaced by
the default (lines 58-60 of the provider source). -/
def jsOrNat (x d : Nat) : Nat := if x = 0 then d else x

/-- JS `x || d` for a possibly-undefined number (`undefined` and `0` are
falsy), used by the `SignalWaiter` constructor defaulting. -/
def jsOrOptInt (x : Option Int) (d : Int) : Int :=
  match x with
  | none => d
  | some v => if v = 0 then d else v

/-- JS `x || d` for a possibly-undefined string: `undefined` and `""` are
falsy (used for `msg.Body || "ready"` and `msg.MessageId || ...`). -/
def jsOrStr (x : Option String) (d : String) : String :=
  match x with
  | none => d
  | some s => if s = "" then d else s

/-- JS string truthiness for a possibly-undefined string. -/
def truthyStr : Option String → Bool
  | none => false
  | some s => s != ""

/-- Does the first character list begin with the second? -/
def strLeads : List Char → List Char → Bool
  | _, [] => true
  | [], _ :: _ => false
  | a :: as, b :: bs => a == b && strLeads as bs

/-- Does the first character list contain the second as a contiguous run? -/
def strHas : List Char → List Char → Bool
  | [], needle => needle == []
  | c :: rest, needle => strLeads (c :: rest) needle || strHas rest needle

/-- JS `String.prototype.includes`: substring test. -/
def strIncludes (s pat : String) : Bool := strHas s.data pat.data

/-- One message as returned by `ReceiveMessageCommand`: `Body`,
`ReceiptHandle` and `MessageId` may each be absent. -/
structure SqsMessage where
  body : Option String
  receiptHandle : Option String
  messageId : Option String
  deriving DecidableEq

/-- One entry of a `DeleteMessageBatchCommand` (source lines 99-104). -/
structure DeleteEntry where
  id : String
  receiptHandle : String
  deriving DecidableEq

/-- One `ReceiveMessageCommand` as issued (source lines 82-86), together
with ghost observations of the loop state at the moment of the request:
`signalsBefore` is `receivedSignals.length` and `remainingMs` is
`timeout - elapsed` at the start of that iteration. -/
structure ReceiveRequest where
  maxNumberOfMessages : Nat
  waitTimeSeconds : Nat
  signalsBefore : Nat
  remainingMs : Nat
  deriving DecidableEq

/-- Environment behaviour of one loop iteration: either the receive call
returns a list of messages (`deleteFails` says whether the batched delete
issued afterwards, if any, fails), or it throws with the given error
message.  `dur` is the wall-clock time in ms consumed by the iteration's
queue interaction. -/
inductive PollEvent where
  | recv (msgs : List SqsMessage) (deleteFails : Bool) (dur : Nat)
  | err (msg : String) (dur : Nat)
  deriving DecidableEq

/-- The `WaitForSignalInputs` interface of the dynamic provider. -/
structure WaitForSignalInputs where
  queueUrl : String
  region : String
  timeout : Nat
  pollInterval : Nat
  requiredSignalCount : Nat
  deleteMessages : Bool
  deriving DecidableEq

/-- Effective run configuration after the defaulting at source lines 58-61
(`timeout || 300000`, `pollInterval || 10`, `requiredSignalCount || 1`). -/
structure Config where
  queueUrl : String
  timeout : Nat
  pollInterval : Nat
  requiredSignalCount : Nat
  deleteMessages : Bool
  deriving DecidableEq

/-- Successful result object (source lines 132-139 and 168-175); the
timestamp-only fields `id` and `receivedAt` are omitted. -/
structure RunResult where
  signals : List String
  signalCount : Nat
  pollCount : Nat
  elapsedMs : Nat
  deriving DecidableEq

/-- Mutable loop state of one run: clock `t` (ms since `start`), the poll
counter, the accumulated `receivedSignals`, plus ghost logs of the issued
receive requests and batched delete commands, and the `envOk` monitor
(true while every receive has returned at most the requested maximum). -/
structure LoopState where
  t : Nat
  pollCount : Nat
  signals : List String
  recvLog : List ReceiveRequest
  delLog : List (List DeleteEntry)
  envOk : Bool
  deriving DecidableEq

/-- Terminal outcome of `create`: the in-loop success return (line 132),
the post-loop fallback return (line 168), the fatal throw (line 152,
carrying the full wrapped message), the timeout throw (line 162, carrying
the data interpolated into the thrown message: elapsed ms, required count,
received count, poll count; the source rounds the elapsed time to seconds
when formatting), or `stuck` when the environment trace ends while the
loop would still continue. -/
inductive RunOutcome where
  | success (r : RunResult)
  | fallback (r : RunResult)
  | fatalError (message : String)
  | timeoutError (elapsedMs required received polls : Nat)
  | stuck (st : LoopState)
  deriving DecidableEq

/-- Observable output of a run: the outcome plus ghost logs and the final
clock / poll-counter values. -/
structure RunOutput where
  outcome : RunOutcome
  receives : List ReceiveRequest
  deletes : List (List DeleteEntry)
  envOk : Bool
  finalT : Nat
  finalPolls : Nat
  deriving DecidableEq

/-- `msg.Body || "ready"` (source line 94). -/
def bodyOrReady (m : SqsMessage) : String := jsOrStr m.body "ready"

/-- Fatal-error classification of source lines 147-151: substring match on
the error message. -/
def isFatalError (errorMessage : String) : Bool :=
  strIncludes errorMessage "does not exist" ||
  strIncludes errorMessage "AccessDenied" ||
  strIncludes errorMessage "InvalidParameterValue"

/-- A batched-delete entry for one message (source lines 100-103); the
`Id` falls back to a clock-derived string when `MessageId` is falsy. -/
def mkDeleteEntry (now : Nat) (m : SqsMessage) : DeleteEntry :=
  ⟨jsOrStr m.messageId ("msg-" ++ toString now), m.receiptHandle.getD ""⟩

/-- The receive request built at source lines 82-86:
`MaxNumberOfMessages = min(10, required - received)` and
`WaitTimeSeconds = min(pollInterval, floor(remaining / 1000))`. -/
def mkReceiveRequest (cfg : Config) (st : LoopState) : ReceiveRequest :=
  { maxNumberOfMessages := min 10 (cfg.requiredSignalCount - st.signals.length)
    waitTimeSeconds := min cfg.pollInterval ((cfg.timeout - st.t) / 1000)
    signalsBefore := st.signals.length
    remainingMs := cfg.timeout - st.t }

/-- The `while` condition of source line 72. -/
abbrev loopLive (cfg : Config) (st : LoopState) : Prop :=
  st.t < cfg.timeout ∧ st.signals.length < cfg.requiredSignalCount

/-- Signals after appending one received batch (source line 94, in the
order the receive call returned the messages). -/
def nextSignals (st : LoopState) (msgs : List SqsMessage) : List String :=
  st.signals ++ msgs.map bodyOrReady

/-- Entries staged for batched deletion in one iteration (source lines
99-104): only when deletion is enabled, and only messages with a truthy
receipt handle. -/
def pollEntries (cfg : Config) (t2 : Nat) (msgs : List SqsMessage) : List DeleteEntry :=
  if cfg.deleteMessages then
    (msgs.filter fun m => truthyStr m.receiptHandle).map (mkDeleteEntry t2)
  else []

/-- Delete log after one iteration: a batched delete command is issued
exactly when deletion is enabled and at least one entry was staged
(source line 108); a failure of the issued command is swallowed with a
warning (lines 118-122) and changes nothing. -/
def nextDelLog (cfg : Config) (st : LoopState) (t2 : Nat)
    (msgs : List SqsMessage) : List (List DeleteEntry) :=
  if cfg.deleteMessages ∧ 0 < (pollEntries cfg t2 msgs).length then
    st.delLog ++ [pollEntries cfg t2 msgs]
  else st.delLog

/-- One loop iteration (source lines 73-157), after the `while` condition
has been found true: returns either a terminal output (in-loop success
return or fatal throw) or the next loop state. -/
def stepEvent (cfg : Config) (st : LoopState) : PollEvent → Sum RunOutput LoopState
  | .recv msgs _ dur =>
    if msgs.length = 0 then
      .inr { st with
             t := st.t + dur
             pollCount := st.pollCount + 1
             recvLog := st.recvLog ++ [mkReceiveRequest cfg st]
             envOk := st.envOk &&
               decide (msgs.length ≤ (mkReceiveRequest cfg st).maxNumberOfMessages) }
    else if cfg.requiredSignalCount ≤ (nextSignals st msgs).length then
      .inl { outcome := .success { signals := nextSignals st msgs
                                   signalCount := (nextSignals st msgs).length
                                   pollCount := st.pollCount + 1
                                   elapsedMs := st.t + dur }
             receives := st.recvLog ++ [mkReceiveRequest cfg st]
             deletes := nextDelLog cfg st (st.t + dur) msgs
             envOk := st.envOk &&
               decide (msgs.length ≤ (mkReceiveRequest cfg st).maxNumberOfMessages)
             finalT := st.t + dur
             finalPolls := st.pollCount + 1 }
    else
      .inr { st with
             t := st.t + dur
             pollCount := st.pollCount + 1
             signals := nextSignals st msgs
             recvLog := st.recvLog ++ [mkReceiveRequest cfg st]
             delLog := nextDelLog cfg st (st.t + dur) msgs
             envOk := st.envOk &&
               decide (msgs.length ≤ (mkReceiveRequest cfg st).maxNumberOfMessages) }
  | .err msg dur =>
    if isFatalError msg then
      .inl { outcome := .fatalError ("SignalWaiter: Fatal error - " ++ msg)
             receives := st.recvLog ++ [mkReceiveRequest cfg st]
             deletes := st.delLog
             envOk := st.envOk
             finalT := st.t + dur
             finalPolls := st.pollCount + 1 }
    else
      .inr { st with
             t := st.t + dur + 5000
             pollCount := st.pollCount + 1
             recvLog := st.recvLog ++ [mkReceiveRequest cfg st] }

/-- Output when the environment trace is exhausted while the loop would
still continue: the run is blocked waiting for more queue behaviour. -/
def stuckOutput (st : LoopState) : RunOutput :=
  ⟨.stuck st, st.recvLog, st.delLog, st.envOk, st.t, st.pollCount⟩

/-- Post-loop epilogue (source lines 160-175): timeout throw when the
count is insufficient, otherwise the fallback success return. -/
def finishOutput (cfg : Config) (st : LoopState) : RunOutput :=
  if st.signals.length < cfg.requiredSignalCount then
    ⟨.timeoutError st.t cfg.requiredSignalCount st.signals.length st.pollCount,
     st.recvLog, st.delLog, st.envOk, st.t, st.pollCount⟩
  else
    ⟨.fallback ⟨st.signals, st.signals.length, st.pollCount, st.t⟩,
     st.recvLog, st.delLog, st.envOk, st.t, st.pollCount⟩

/-- The polling loop of `WaitForSignalProvider.create` (source lines
72-175), driven by the environment trace. -/
def createLoop (cfg : Config) : List PollEvent → LoopState → RunOutput
  | [], st => if loopLive cfg st then stuckOutput st else finishOutput cfg st
  | ev :: rest, st =>
    if loopLive cfg st then
      match stepEvent cfg st ev with
      | .inl out => out
      | .inr st2 => createLoop cfg rest st2
    else finishOutput cfg st

/-- Initial run state (source lines 57-63). -/
def initState : LoopState := ⟨0, 0, [], [], [], true⟩

/-- The defaulting of source lines 58-61 applied to the provider inputs. -/
def effectiveConfig (inputs : WaitForSignalInputs) : Config :=
  { queueUrl := inputs.queueUrl
    timeout := jsOrNat inputs.timeout 300000
    pollInterval := jsOrNat inputs.pollInterval 10
    requiredSignalCount := jsOrNat inputs.requiredSignalCount 1
    deleteMessages := inputs.deleteMessages }

/-- `WaitForSignalProvider.create` as a function of the inputs and the
environment trace. -/
def create (inputs : WaitForSignalInputs) (trace : List PollEvent) : RunOutput :=
  createLoop (effectiveConfig inputs) trace initState

/-- Messages delivered by one environment event. -/
def eventMsgs : PollEvent → List SqsMessage
  | .recv msgs _ _ => msgs
  | .err _ _ => []

/-- Duration in ms of one environment event. -/
def eventDur : PollEvent → Nat
  | .recv _ _ d => d
  | .err _ d => d

/-- The accumulated signal count visible in a run output. The fatal throw
of line 152 carries no count in the source, so it is measured as 0 here. -/
def sigCount (out : RunOutput) : Nat :=
  match out.outcome with
  | .success r => r.signalCount
  | .fallback r => r.signalCount
  | .fatalError _ => 0
  | .timeoutError _ _ received _ => received
  | .stuck st => st.signals.length

/-- Is the outcome the in-loop success return of source line 132? -/
def isSuccess : RunOutcome → Bool
  | .success _ => true
  | _ => false

/-- Is the outcome the post-loop fallback return of source line 168? -/
def isFallback : RunOutcome → Bool
  | .fallback _ => true
  | _ => false

/-- The accumulated signal list after one loop iteration's step. -/
def stepSignals : Sum RunOutput LoopState → List String
  | .inl out =>
    match out.outcome with
    | .success r => r.signals
    | .fallback r => r.signals
    | .stuck st => st.signals
    | .fatalError _ => []
    | .timeoutError _ _ _ _ => []
  | .inr st => st.signals

/-- Turn every receive event of a trace into one whose batched delete
succeeds, leaving everything else unchanged. -/
def clearDeleteFails : PollEvent → PollEvent
  | .recv msgs _ dur => .recv msgs false dur
  | .err e dur => .err e dur

/-- Walks a trace the way the loop's clock and counter would, and decides
whether the queue yields signals totaling the required count before the
deadline and before any fatal receive error. -/
def reachesRequired (cfg : Config) : List PollEvent → Nat → Nat → Bool
  | [], _, _ => false
  | .recv msgs _ dur :: rest, t, count =>
    if t < cfg.timeout then
      if cfg.requiredSignalCount ≤ count + msgs.length then true
      else reachesRequired cfg rest (t + dur) (count + msgs.length)
    else false
  | .err e dur :: rest, t, count =>
    if t < cfg.timeout then
      if isFatalError e then false
      else reachesRequired cfg rest (t + dur + 5000) count
    else false

/-- Arguments of the `SignalWaiter` component (all optional fields may be
absent); numeric fields are modelled as supplied plain numbers, which is
the case the source's `typeof x === "number"` guards validate. -/
structure SignalWaiterArgs where
  queueUrl : Option String
  region : Option String
  timeoutMs : Option Int
  pollIntervalSeconds : Option Int
  requiredSignalCount : Option Int
  deleteMessages : Option Bool
  deriving DecidableEq

/-- Well-formedness of an issued receive request with respect to the run
configuration, as dictated by source lines 82-86: the batch size is capped
by `min(10, required - alreadyReceived)` and the long-poll wait by
`min(pollInterval, floor(remaining / 1000))`, both computed from a live
loop state. -/
def goodRequest (cfg : Config) (r : ReceiveRequest) : Prop :=
  r.maxNumberOfMessages = min 10 (cfg.requiredSignalCount - r.signalsBefore) ∧
  r.signalsBefore + r.maxNumberOfMessages ≤ cfg.requiredSignalCount ∧
  r.waitTimeSeconds = min cfg.pollInterval (r.remainingMs / 1000) ∧
  r.waitTimeSeconds * 1000 ≤ r.remainingMs ∧
  0 < r.remainingMs ∧
  r.signalsBefore < cfg.requiredSignalCount

/-- Forget the ghost delete log of a loop state. -/
def eraseDelLog (st : LoopState) : LoopState := { st with delLog := [] }

/-- The outcome with any ghost delete log inside a `stuck` state erased,
used to compare runs that differ only in their deletion policy. -/
def coreOutcome : RunOutcome → RunOutcome
  | .stuck st => .stuck (eraseDelLog st)
  | o => o

/-- Agreement of the observable parts of two run outputs that may differ
only in their ghost delete logs: same core outcome, same receive requests,
same environment monitor, same final clock and poll counter, and the first
run issued no delete commands at all. -/
def pairOk (outF outT : RunOutput) : Prop :=
  coreOutcome outF.outcome = coreOutcome outT.outcome ∧
  outF.receives = outT.receives ∧
  outF.deletes = [] ∧
  outF.envOk = outT.envOk ∧
  outF.finalT = outT.finalT ∧
  outF.finalPolls = outT.finalPolls

/-- The `SignalWaiter` constructor validation (source lines 257-314):
throws (here: returns `.error`) on a falsy `queueUrl` or an out-of-range
defaulted numeric option, and otherwise builds the provider inputs.
`awsConfigRegion` models the ambient `new pulumi.Config("aws")` region. -/
def signalWaiterNew (args : SignalWaiterArgs) (awsConfigRegion : Option String) :
    Except String WaitForSignalInputs :=
  if truthyStr args.queueUrl = false then
    .error "SignalWaiter: queueUrl is required"
  else if jsOrOptInt args.timeoutMs 300000 < 10000 then
    .error "SignalWaiter: timeoutMs must be at least 10000 (10 seconds)"
  else if 3600000 < jsOrOptInt args.timeoutMs 300000 then
    .error "SignalWaiter: timeoutMs must not exceed 3600000 (1 hour)"
  else if jsOrOptInt args.pollIntervalSeconds 10 < 1 then
    .error "SignalWaiter: pollIntervalSeconds must be at least 1"
  else if 20 < jsOrOptInt args.pollIntervalSeconds 10 then
    .error "SignalWaiter: pollIntervalSeconds must not exceed 20 (SQS long polling limit)"
  else if jsOrOptInt args.requiredSignalCount 1 < 1 then
    .error "SignalWaiter: requiredSignalCount must be at least 1"
  else if 100 < jsOrOptInt args.requiredSignalCount 1 then
    .error "SignalWaiter: requiredSignalCount must not exceed 100 (practical limit)"
  else
    .ok { queueUrl := args.queueUrl.getD ""
          region := jsOrStr args.region (jsOrStr awsConfigRegion "us-east-1")
          timeout := (jsOrOptInt args.timeoutMs 300000).toNat
          pollInterval := (jsOrOptInt args.pollIntervalSeconds 10).toNat
          requiredSignalCount := (jsOrOptInt args.requiredSignalCount 1).toNat
          deleteMessages := !(args.deleteMessages == some false) }

/-! Helper lemmas about the loop. -/

theorem createLoop_nil (cfg : Config) (st : LoopState) :
    createLoop cfg [] st =
      if loopLive cfg st then stuckOutput st else finishOutput cfg st := rfl

theorem createLoop_cons (cfg : Config) (ev : PollEvent) (rest : List PollEvent)
    (st : LoopState) :
    createLoop cfg (ev :: rest) st =
      if loopLive cfg st then
        match stepEvent cfg st ev with
        | .inl out => out
        | .inr st2 => createLoop cfg rest st2
      else finishOutput cfg st := rfl

theorem createLoop_invariant (cfg : Config) (P : LoopState → Prop)
    (Q : RunOutput → Prop) (E : PollEvent → Prop)
    (hstuck : ∀ st, P st → loopLive cfg st → Q (stuckOutput st))
    (hfinish : ∀ st, P st → ¬ loopLive cfg st → Q (finishOutput cfg st))
    (hstepOut : ∀ st ev out, E ev → P st → loopLive cfg st →
      stepEvent cfg st ev = .inl out → Q out)
    (hstepNext : ∀ st ev st2, E ev → P st → loopLive cfg st →
      stepEvent cfg st ev = .inr st2 → P st2) :
    ∀ (trace : List PollEvent) (st : LoopState),
      (∀ ev ∈ trace, E ev) → P st → Q (createLoop cfg trace st) := by
  intro trace
  induction trace with
  | nil =>
    intro st _ hP
    rw [createLoop_nil]
    split
    · exact hstuck st hP ‹_›
    · exact hfinish st hP ‹_›
  | cons ev rest ih =>
    intro st hE hP
    rw [createLoop_cons]
    split
    · rename_i hl
      cases hse : stepEvent cfg st ev with
      | inl out => exact hstepOut st ev out (hE ev (List.mem_cons_self ev rest)) hP hl hse
      | inr st2 =>
        exact ih st2 (fun e he => hE e (List.mem_cons_of_mem ev he))
          (hstepNext st ev st2 (hE ev (List.mem_cons_self ev rest)) hP hl hse)
    · exact hfinish st hP ‹_›

theorem stuck_inversion (cfg : Config) (trace : List PollEvent) (st st2 : LoopState)
    (h : (createLoop cfg trace st).outcome = .stuck st2) :
    createLoop cfg trace st = stuckOutput st2 := by
  have key : ∀ st3, (createLoop cfg trace st).outcome = .stuck st3 →
      createLoop cfg trace st = stuckOutput st3 := by
    refine createLoop_invariant cfg (fun _ => True)
      (fun out => ∀ st3, out.outcome = .stuck st3 → out = stuckOutput st3)
      (fun _ => True) ?_ ?_ ?_ ?_ trace st (fun _ _ => trivial) trivial
    · intro s _ _ st3 hout
      simp only [stuckOutput] at hout ⊢
      cases hout
      rfl
    · intro s _ _ st3 hout
      unfold finishOutput at hout
      split at hout <;> simp at hout
    · intro s ev out _ _ _ hse st3 hout
      cases ev with
      | recv msgs df dur =>
        simp only [stepEvent] at hse
        split at hse
        · simp at hse
        · split at hse
          · simp only [Sum.inl.injEq] at hse
            rw [← hse] at hout
            simp at hout
          · simp at hse
      | err m dur =>
        simp only [stepEvent] at hse
        split at hse
        · simp only [Sum.inl.injEq] at hse
          rw [← hse] at hout
          simp at hout
        · simp at hse
    · intro s ev st3 _ _ _ _
      trivial
  exact key st2 h

theorem createLoop_append_stuck (cfg : Config) :
    ∀ (p q : List PollEvent) (st st2 : LoopState),
    createLoop cfg p st = stuckOutput st2 →
    createLoop cfg (p ++ q) st = createLoop cfg q st2 := by
  intro p
  induction p with
  | nil =>
    intro q st st2 h
    rw [createLoop_nil] at h
    split at h
    · have : st = st2 := by
        have h2 := congrArg RunOutput.outcome h
        simpa [stuckOutput] using h2
      subst this
      simp
    · exfalso
      unfold finishOutput stuckOutput at h
      split at h <;> simp [RunOutput.mk.injEq] at h
  | cons ev rest ih =>
    intro q st st2 h
    rw [createLoop_cons] at h
    rw [List.cons_append, createLoop_cons]
    split
    · rename_i hl
      rw [if_pos hl] at h
      cases hse : stepEvent cfg st ev with
      | inl out =>
        exfalso
        rw [hse] at h
        simp only at h
        subst h
        cases ev with
        | recv msgs df dur =>
          simp only [stepEvent] at hse
          split at hse
          · simp at hse
          · split at hse
            · simp only [Sum.inl.injEq] at hse
              have := congrArg RunOutput.outcome hse
              simp [stuckOutput] at this
            · simp at hse
        | err m dur =>
          simp only [stepEvent] at hse
          split at hse
          · simp only [Sum.inl.injEq] at hse
            have := congrArg RunOutput.outcome hse
            simp [stuckOutput] at this
          · simp at hse
      | inr st3 =>
        rw [hse] at h
        simp only at h
        exact ih q st3 st2 h
    · rename_i hl
      rw [if_neg hl] at h
      exfalso
      unfold finishOutput stuckOutput at h
      split at h <;> simp [RunOutput.mk.injEq] at h

theorem createLoop_not_live (cfg : Config) (q : List PollEvent) (st : LoopState)
    (hl : ¬ loopLive cfg st) : createLoop cfg q st = finishOutput cfg st := by
  cases q with
  | nil => rw [createLoop_nil, if_neg hl]
  | cons ev rest => rw [createLoop_cons, if_neg hl]

theorem createLoop_append_done (cfg : Config) :
    ∀ (p q : List PollEvent) (st : LoopState),
    (∀ st2, (createLoop cfg p st).outcome ≠ .stuck st2) →
    createLoop cfg (p ++ q) st = createLoop cfg p st := by
  intro p
  induction p with
  | nil =>
    intro q st h
    rw [createLoop_nil]
    split
    · rename_i hl
      exact absurd (by rw [createLoop_nil, if_pos hl]; rfl : (createLoop cfg [] st).outcome = .stuck st) (h st)
    · rename_i hl
      rw [List.nil_append]
      exact createLoop_not_live cfg q st hl
  | cons ev rest ih =>
    intro q st h
    rw [List.cons_append, createLoop_cons, createLoop_cons]
    split
    · rename_i hl
      rw [createLoop_cons, if_pos hl] at h
      cases hse : stepEvent cfg st ev with
      | inl out => simp only
      | inr st2 =>
        simp only
        apply ih
        intro st3
        have := h st3
        rw [hse] at this
        simpa using this
    · rfl

theorem envOk_false_stable (cfg : Config) (trace : List PollEvent) (st : LoopState)
    (h : st.envOk = false) : (createLoop cfg trace st).envOk = false := by
  refine createLoop_invariant cfg (fun s => s.envOk = false)
    (fun out => out.envOk = false) (fun _ => True)
    ?_ ?_ ?_ ?_ trace st (fun _ _ => trivial) h
  · intro s hs _
    simpa [stuckOutput] using hs
  · intro s hs _
    unfold finishOutput
    split <;> simpa using hs
  · intro s ev out _ hs _ hse
    cases ev with
    | recv msgs df dur =>
      simp only [stepEvent] at hse
      split at hse
      · simp at hse
      · split at hse
        · simp only [Sum.inl.injEq] at hse
          subst hse
          simp [hs]
        · simp at hse
    | err m dur =>
      simp only [stepEvent] at hse
      split at hse
      · simp only [Sum.inl.injEq] at hse
        subst hse
        simpa using hs
      · simp at hse
  · intro s ev s2 _ hs _ hse
    cases ev with
    | recv msgs df dur =>
      simp only [stepEvent] at hse
      split at hse
      · simp only [Sum.inr.injEq] at hse
        subst hse
        simp [hs]
      · split at hse
        · simp at hse
        · simp only [Sum.inr.injEq] at hse
          subst hse
          simp [hs]
    | err m dur =>
      simp only [stepEvent] at hse
      split at hse
      · simp at hse
      · simp only [Sum.inr.injEq] at hse
        subst hse
        simpa using hs

theorem envOk_mono (cfg : Config) (trace : List PollEvent) (st : LoopState)
    (h : (createLoop cfg trace st).envOk = true) : st.envOk = true := by
  cases hb : st.envOk with
  | true => rfl
  | false =>
    rw [envOk_false_stable cfg trace st hb] at h
    exact absurd h (by simp)

theorem mkReceiveRequest_good (cfg : Config) (s : LoopState)
    (hl : loopLive cfg s) : goodRequest cfg (mkReceiveRequest cfg s) := by
  obtain ⟨ht, hc⟩ := hl
  have h1 : min 10 (cfg.requiredSignalCount - s.signals.length) ≤
      cfg.requiredSignalCount - s.signals.length := Nat.min_le_right _ _
  have h2 : min cfg.pollInterval ((cfg.timeout - s.t) / 1000) ≤
      (cfg.timeout - s.t) / 1000 := Nat.min_le_right _ _
  have h3 : (cfg.timeout - s.t) / 1000 * 1000 ≤ cfg.timeout - s.t :=
    Nat.div_mul_le_self _ _
  simp only [goodRequest, mkReceiveRequest]
  refine ⟨trivial, ?_, trivial, ?_, ?_, hc⟩
  · omega
  · calc min cfg.pollInterval ((cfg.timeout - s.t) / 1000) * 1000
        ≤ (cfg.timeout - s.t) / 1000 * 1000 := Nat.mul_le_mul_right _ h2
      _ ≤ cfg.timeout - s.t := h3
  · omega

theorem recvLog_good (cfg : Config) (trace : List PollEvent) (st : LoopState)
    (hst : ∀ r ∈ st.recvLog, goodRequest cfg r) :
    ∀ r ∈ (createLoop cfg trace st).receives, goodRequest cfg r := by
  refine createLoop_invariant cfg (fun s => ∀ r ∈ s.recvLog, goodRequest cfg r)
    (fun out => ∀ r ∈ out.receives, goodRequest cfg r) (fun _ => True)
    ?_ ?_ ?_ ?_ trace st (fun _ _ => trivial) hst
  · intro s hs _
    simpa [stuckOutput] using hs
  · intro s hs _
    unfold finishOutput
    split <;> simpa using hs
  · intro s ev out _ hs hl hse
    have hext : ∀ r ∈ s.recvLog ++ [mkReceiveRequest cfg s], goodRequest cfg r := by
      intro r hr
      rcases List.mem_append.mp hr with hr | hr
      · exact hs r hr
      · rw [List.mem_singleton] at hr
        subst hr
        exact mkReceiveRequest_good cfg s hl
    cases ev with
    | recv msgs df dur =>
      simp only [stepEvent] at hse
      split at hse
      · simp at hse
      · split at hse
        · simp only [Sum.inl.injEq] at hse
          subst hse
          simpa using hext
        · simp at hse
    | err m dur =>
      simp only [stepEvent] at hse
      split at hse
      · simp only [Sum.inl.injEq] at hse
        subst hse
        simpa using hext
      · simp at hse
  · intro s ev s2 _ hs hl hse
    have hext : ∀ r ∈ s.recvLog ++ [mkReceiveRequest cfg s], goodRequest cfg r := by
      intro r hr
      rcases List.mem_append.mp hr with hr | hr
      · exact hs r hr
      · rw [List.mem_singleton] at hr
        subst hr
        exact mkReceiveRequest_good cfg s hl
    cases ev with
    | recv msgs df dur =>
      simp only [stepEvent] at hse
      split at hse
      · simp only [Sum.inr.injEq] at hse
        subst hse
        simpa using hext
      · split at hse
        · simp at hse
        · simp only [Sum.inr.injEq] at hse
          subst hse
          simpa using hext
    | err m dur =>
      simp only [stepEvent] at hse
      split at hse
      · simp at hse
      · simp only [Sum.inr.injEq] at hse
        subst hse
        simpa using hext

theorem count_invariant (cfg : Config) (trace : List PollEvent) (st : LoopState)
    (hst : st.signals.length < cfg.requiredSignalCount ∨ st.envOk = false) :
    (sigCount (createLoop cfg trace st) ≤ cfg.requiredSignalCount ∧
      isFallback (createLoop cfg trace st).outcome = false) ∨
    (createLoop cfg trace st).envOk = false := by
  refine createLoop_invariant cfg
    (fun s => s.signals.length < cfg.requiredSignalCount ∨ s.envOk = false)
    (fun out => (sigCount out ≤ cfg.requiredSignalCount ∧
      isFallback out.outcome = false) ∨ out.envOk = false)
    (fun _ => True) ?_ ?_ ?_ ?_ trace st (fun _ _ => trivial) hst
  · intro s hs _
    rcases hs with hs | hs
    · exact Or.inl ⟨by simp [stuckOutput, sigCount]; omega, by simp [stuckOutput, isFallback]⟩
    · exact Or.inr (by simpa [stuckOutput] using hs)
  · intro s hs _
    rcases hs with hs | hs
    · refine Or.inl ?_
      unfold finishOutput
      rw [if_pos hs]
      exact ⟨by simp [sigCount]; omega, by simp [isFallback]⟩
    · refine Or.inr ?_
      unfold finishOutput
      split <;> simpa using hs
  · intro s ev out _ hs _ hse
    cases ev with
    | recv msgs df dur =>
      simp only [stepEvent] at hse
      split at hse
      · simp at hse
      · split at hse
        · simp only [Sum.inl.injEq] at hse
          subst hse
          rcases hs with hs | hs
          · by_cases hch : msgs.length ≤ (mkReceiveRequest cfg s).maxNumberOfMessages
            · refine Or.inl ⟨?_, by simp [isFallback]⟩
              simp only [sigCount, nextSignals, List.length_append, List.length_map]
              simp only [mkReceiveRequest] at hch
              have h1 : min 10 (cfg.requiredSignalCount - s.signals.length) ≤
                  cfg.requiredSignalCount - s.signals.length := Nat.min_le_right _ _
              omega
            · exact Or.inr (by simp [hch])
          · exact Or.inr (by simp [hs])
        · simp at hse
    | err m dur =>
      simp only [stepEvent] at hse
      split at hse
      · simp only [Sum.inl.injEq] at hse
        subst hse
        exact Or.inl ⟨by simp [sigCount], by simp [isFallback]⟩
      · simp at hse
  · intro s ev s2 _ hs _ hse
    cases ev with
    | recv msgs df dur =>
      simp only [stepEvent] at hse
      split at hse
      · simp only [Sum.inr.injEq] at hse
        subst hse
        rcases hs with hs | hs
        · exact Or.inl (by simpa using hs)
        · exact Or.inr (by simp [hs])
      · split at hse
        · simp at hse
        · rename_i hnot
          simp only [Sum.inr.injEq] at hse
          subst hse
          rcases hs with hs | hs
          · exact Or.inl (by simpa using Nat.lt_of_not_le hnot)
          · exact Or.inr (by simp [hs])
    | err m dur =>
      simp only [stepEvent] at hse
      split at hse
      · simp at hse
      · simp only [Sum.inr.injEq] at hse
        subst hse
        rcases hs with hs | hs
        · exact Or.inl (by simpa using hs)
        · exact Or.inr (by simpa using hs)

theorem timeout_fields (cfg : Config) (trace : List PollEvent) (st : LoopState) :
    ∀ e req rec p, (createLoop cfg trace st).outcome = .timeoutError e req rec p →
      req = cfg.requiredSignalCount ∧ rec < cfg.requiredSignalCount ∧
      cfg.timeout ≤ e := by
  refine createLoop_invariant cfg (fun _ => True)
    (fun out => ∀ e req rec p, out.outcome = .timeoutError e req rec p →
      req = cfg.requiredSignalCount ∧ rec < cfg.requiredSignalCount ∧
      cfg.timeout ≤ e)
    (fun _ => True) ?_ ?_ ?_ ?_ trace st (fun _ _ => trivial) trivial
  · intro s _ _ e req rec p hout
    simp [stuckOutput] at hout
  · intro s _ hl e req rec p hout
    unfold finishOutput at hout
    split at hout
    · rename_i hlen
      simp only [RunOutcome.timeoutError.injEq] at hout
      obtain ⟨he, hreq, hrec, hp⟩ := hout
      subst he
      subst hreq
      subst hrec
      refine ⟨rfl, hlen, ?_⟩
      by_contra hcon
      push_neg at hcon
      exact hl ⟨hcon, hlen⟩
    · simp at hout
  · intro s ev out _ _ _ hse e req rec p hout
    cases ev with
    | recv msgs df dur =>
      simp only [stepEvent] at hse
      split at hse
      · simp at hse
      · split at hse
        · simp only [Sum.inl.injEq] at hse
          subst hse
          simp at hout
        · simp at hse
    | err m dur =>
      simp only [stepEvent] at hse
      split at hse
      · simp only [Sum.inl.injEq] at hse
        subst hse
        simp at hout
      · simp at hse
  · intro s ev s2 _ _ _ _
    trivial

theorem timeout_received_const (cfg : Config) (trace : List PollEvent)
    (st : LoopState) (hmsgs : ∀ ev ∈ trace, eventMsgs ev = []) :
    ∀ e req rec p, (createLoop cfg trace st).outcome = .timeoutError e req rec p →
      rec = st.signals.length := by
  refine createLoop_invariant cfg (fun s => s.signals = st.signals)
    (fun out => ∀ e req rec p, out.outcome = .timeoutError e req rec p →
      rec = st.signals.length)
    (fun ev => eventMsgs ev = []) ?_ ?_ ?_ ?_ trace st hmsgs rfl
  · intro s _ _ e req rec p hout
    simp [stuckOutput] at hout
  · intro s hsig _ e req rec p hout
    unfold finishOutput at hout
    split at hout
    · simp only [RunOutcome.timeoutError.injEq] at hout
      obtain ⟨_, _, hrec, _⟩ := hout
      rw [← hrec, hsig]
    · simp at hout
  · intro s ev out hE _ _ hse e req rec p hout
    cases ev with
    | recv msgs df dur =>
      simp only [eventMsgs] at hE
      subst hE
      simp only [stepEvent, List.length_nil] at hse
      simp at hse
    | err m dur =>
      simp only [stepEvent] at hse
      split at hse
      · simp only [Sum.inl.injEq] at hse
        subst hse
        simp at hout
      · simp at hse
  · intro s ev s2 hE hsig _ hse
    cases ev with
    | recv msgs df dur =>
      simp only [eventMsgs] at hE
      subst hE
      simp only [stepEvent, List.length_nil, if_true, Sum.inr.injEq] at hse
      subst hse
      simpa using hsig
    | err m dur =>
      simp only [stepEvent] at hse
      split at hse
      · simp at hse
      · simp only [Sum.inr.injEq] at hse
        subst hse
        simpa using hsig

theorem finalT_bound (cfg : Config) (D : Nat) (trace : List PollEvent)
    (st : LoopState) (hD : ∀ ev ∈ trace, eventDur ev ≤ D)
    (hst : st.t < cfg.timeout + D + 5000) :
    (createLoop cfg trace st).finalT < cfg.timeout + D + 5000 := by
  refine createLoop_invariant cfg (fun s => s.t < cfg.timeout + D + 5000)
    (fun out => out.finalT < cfg.timeout + D + 5000)
    (fun ev => eventDur ev ≤ D) ?_ ?_ ?_ ?_ trace st hD hst
  · intro s hs _
    simpa [stuckOutput] using hs
  · intro s hs _
    unfold finishOutput
    split <;> simpa using hs
  · intro s ev out hE hs hl hse
    cases ev with
    | recv msgs df dur =>
      simp only [eventDur] at hE
      simp only [stepEvent] at hse
      split at hse
      · simp at hse
      · split at hse
        · simp only [Sum.inl.injEq] at hse
          subst hse
          simp only
          omega
        · simp at hse
    | err m dur =>
      simp only [eventDur] at hE
      simp only [stepEvent] at hse
      split at hse
      · simp only [Sum.inl.injEq] at hse
        subst hse
        simp only
        omega
      · simp at hse
  · intro s ev s2 hE hs hl hse
    obtain ⟨ht, _⟩ := hl
    cases ev with
    | recv msgs df dur =>
      simp only [eventDur] at hE
      simp only [stepEvent] at hse
      split at hse
      · simp only [Sum.inr.injEq] at hse
        subst hse
        simp only
        omega
      · split at hse
        · simp at hse
        · simp only [Sum.inr.injEq] at hse
          subst hse
          simp only
          omega
    | err m dur =>
      simp only [eventDur] at hE
      simp only [stepEvent] at hse
      split at hse
      · simp at hse
      · simp only [Sum.inr.injEq] at hse
        subst hse
        simp only
        omega

theorem finalPolls_bound (cfg : Config) (B : Nat) (trace : List PollEvent)
    (st : LoopState) (hD : ∀ ev ∈ trace, 1 ≤ eventDur ev)
    (hst : st.pollCount + (cfg.timeout - st.t) ≤ B) :
    (createLoop cfg trace st).finalPolls ≤ B := by
  refine createLoop_invariant cfg
    (fun s => s.pollCount + (cfg.timeout - s.t) ≤ B)
    (fun out => out.finalPolls ≤ B)
    (fun ev => 1 ≤ eventDur ev) ?_ ?_ ?_ ?_ trace st hD hst
  · intro s hs _
    simp only [stuckOutput]
    omega
  · intro s hs _
    unfold finishOutput
    split <;> (simp only; omega)
  · intro s ev out hE hs hl hse
    obtain ⟨ht, _⟩ := hl
    cases ev with
    | recv msgs df dur =>
      simp only [eventDur] at hE
      simp only [stepEvent] at hse
      split at hse
      · simp at hse
      · split at hse
        · simp only [Sum.inl.injEq] at hse
          subst hse
          simp only
          omega
        · simp at hse
    | err m dur =>
      simp only [eventDur] at hE
      simp only [stepEvent] at hse
      split at hse
      · simp only [Sum.inl.injEq] at hse
        subst hse
        simp only
        omega
      · simp at hse
  · intro s ev s2 hE hs hl hse
    obtain ⟨ht, _⟩ := hl
    cases ev with
    | recv msgs df dur =>
      simp only [eventDur] at hE
      simp only [stepEvent] at hse
      split at hse
      · simp only [Sum.inr.injEq] at hse
        subst hse
        simp only
        omega
      · split at hse
        · simp at hse
        · simp only [Sum.inr.injEq] at hse
          subst hse
          simp only
          omega
    | err m dur =>
      simp only [eventDur] at hE
      simp only [stepEvent] at hse
      split at hse
      · simp at hse
      · simp only [Sum.inr.injEq] at hse
        subst hse
        simp only
        omega

theorem createLoop_cons_of_inl (cfg : Config) (ev : PollEvent)
    (rest : List PollEvent) (st : LoopState) (out : RunOutput)
    (hl : loopLive cfg st) (hse : stepEvent cfg st ev = .inl out) :
    createLoop cfg (ev :: rest) st = out := by
  rw [createLoop_cons, if_pos hl, hse]

theorem createLoop_cons_of_inr (cfg : Config) (ev : PollEvent)
    (rest : List PollEvent) (st st2 : LoopState)
    (hl : loopLive cfg st) (hse : stepEvent cfg st ev = .inr st2) :
    createLoop cfg (ev :: rest) st = createLoop cfg rest st2 := by
  rw [createLoop_cons, if_pos hl, hse]

theorem reaches_success (cfg : Config) :
    ∀ (trace : List PollEvent) (st : LoopState),
    (createLoop cfg trace st).envOk = true →
    reachesRequired cfg trace st.t st.signals.length = true →
    st.signals.length < cfg.requiredSignalCount →
    isSuccess (createLoop cfg trace st).outcome = true ∧
    sigCount (createLoop cfg trace st) = cfg.requiredSignalCount := by
  intro trace
  induction trace with
  | nil =>
    intro st henv hr hc
    simp [reachesRequired] at hr
  | cons ev rest ih =>
    intro st henv hr hc
    cases ev with
    | recv msgs df dur =>
      simp only [reachesRequired] at hr
      split at hr
      · rename_i ht
        have hlive : loopLive cfg st := ⟨ht, hc⟩
        by_cases h0 : msgs.length = 0
        · rw [h0] at hr
          rw [if_neg (by omega : ¬ cfg.requiredSignalCount ≤ st.signals.length + 0)] at hr
          cases hse : stepEvent cfg st (.recv msgs df dur) with
          | inl out =>
            exfalso
            simp only [stepEvent] at hse
            rw [if_pos h0] at hse
            simp at hse
          | inr st2 =>
            rw [createLoop_cons_of_inr cfg _ rest st st2 hlive hse] at henv ⊢
            simp only [stepEvent] at hse
            rw [if_pos h0] at hse
            simp only [Sum.inr.injEq] at hse
            subst hse
            refine ih _ henv ?_ (by simpa using hc)
            simpa using hr
        · by_cases hfin : cfg.requiredSignalCount ≤ (nextSignals st msgs).length
          · cases hse : stepEvent cfg st (.recv msgs df dur) with
            | inr st2 =>
              exfalso
              simp only [stepEvent] at hse
              rw [if_neg h0, if_pos hfin] at hse
              simp at hse
            | inl out =>
              rw [createLoop_cons_of_inl cfg _ rest st out hlive hse] at henv ⊢
              simp only [stepEvent] at hse
              rw [if_neg h0, if_pos hfin] at hse
              simp only [Sum.inl.injEq] at hse
              subst hse
              constructor
              · simp [isSuccess]
              · have henv2 := henv
                simp only [Bool.and_eq_true, decide_eq_true_eq] at henv2
                obtain ⟨-, hlen⟩ := henv2
                simp only [mkReceiveRequest] at hlen
                have hmin : min 10 (cfg.requiredSignalCount - st.signals.length) ≤
                    cfg.requiredSignalCount - st.signals.length := Nat.min_le_right _ _
                have hfin2 : cfg.requiredSignalCount ≤ st.signals.length + msgs.length := by
                  simpa [nextSignals] using hfin
                simp [sigCount, nextSignals]
                omega
          · cases hse : stepEvent cfg st (.recv msgs df dur) with
            | inl out =>
              exfalso
              simp only [stepEvent] at hse
              rw [if_neg h0, if_neg hfin] at hse
              simp at hse
            | inr st2 =>
              rw [createLoop_cons_of_inr cfg _ rest st st2 hlive hse] at henv ⊢
              simp only [stepEvent] at hse
              rw [if_neg h0, if_neg hfin] at hse
              simp only [Sum.inr.injEq] at hse
              subst hse
              have hfin2 : ¬ cfg.requiredSignalCount ≤ st.signals.length + msgs.length := by
                simpa [nextSignals] using hfin
              rw [if_neg hfin2] at hr
              refine ih _ henv ?_ ?_
              · simpa [nextSignals] using hr
              · simpa [nextSignals] using Nat.lt_of_not_le hfin2
      · exact absurd hr (by simp)
    | err m dur =>
      simp only [reachesRequired] at hr
      split at hr
      · rename_i ht
        have hlive : loopLive cfg st := ⟨ht, hc⟩
        split at hr
        · exact absurd hr (by simp)
        · rename_i hf
          cases hse : stepEvent cfg st (.err m dur) with
          | inl out =>
            exfalso
            simp only [stepEvent] at hse
            rw [if_neg hf] at hse
            simp at hse
          | inr st2 =>
            rw [createLoop_cons_of_inr cfg _ rest st st2 hlive hse] at henv ⊢
            simp only [stepEvent] at hse
            rw [if_neg hf] at hse
            simp only [Sum.inr.injEq] at hse
            subst hse
            refine ih _ henv (by simpa using hr) (by simpa using hc)
      · exact absurd hr (by simp)

theorem stepEvent_clear (cfg : Config) (st : LoopState) (ev : PollEvent) :
    stepEvent cfg st (clearDeleteFails ev) = stepEvent cfg st ev := by
  cases ev <;> rfl

theorem createLoop_clear (cfg : Config) :
    ∀ (trace : List PollEvent) (st : LoopState),
    createLoop cfg (trace.map clearDeleteFails) st = createLoop cfg trace st := by
  intro trace
  induction trace with
  | nil => intro st; rfl
  | cons ev rest ih =>
    intro st
    rw [List.map_cons, createLoop_cons, createLoop_cons, stepEvent_clear]
    by_cases hl : loopLive cfg st
    · rw [if_pos hl, if_pos hl]
      cases hse : stepEvent cfg st ev with
      | inl out => rfl
      | inr st2 => exact ih st2
    · rw [if_neg hl, if_neg hl]

theorem stuck_pair (t p : Nat) (sig : List String) (rl : List ReceiveRequest)
    (dl : List (List DeleteEntry)) (e : Bool) :
    pairOk (stuckOutput ⟨t, p, sig, rl, [], e⟩) (stuckOutput ⟨t, p, sig, rl, dl, e⟩) :=
  ⟨rfl, rfl, rfl, rfl, rfl, rfl⟩

theorem finish_pair (quF quT : String) (T P R : Nat) (delT : Bool)
    (t p : Nat) (sig : List String) (rl : List ReceiveRequest)
    (dl : List (List DeleteEntry)) (e : Bool) :
    pairOk (finishOutput ⟨quF, T, P, R, false⟩ ⟨t, p, sig, rl, [], e⟩)
      (finishOutput ⟨quT, T, P, R, delT⟩ ⟨t, p, sig, rl, dl, e⟩) := by
  unfold finishOutput
  by_cases hfin : sig.length < R
  · rw [if_pos hfin, if_pos hfin]
    exact ⟨rfl, rfl, rfl, rfl, rfl, rfl⟩
  · rw [if_neg hfin, if_neg hfin]
    exact ⟨rfl, rfl, rfl, rfl, rfl, rfl⟩

theorem deleteFlag_core (quF quT : String) (T P R : Nat) (delT : Bool) :
    ∀ (trace : List PollEvent) (t p : Nat) (sig : List String)
      (rl : List ReceiveRequest) (dl : List (List DeleteEntry)) (e : Bool),
    pairOk (createLoop ⟨quF, T, P, R, false⟩ trace ⟨t, p, sig, rl, [], e⟩)
      (createLoop ⟨quT, T, P, R, delT⟩ trace ⟨t, p, sig, rl, dl, e⟩) := by
  intro trace
  induction trace with
  | nil =>
    intro t p sig rl dl e
    rw [createLoop_nil, createLoop_nil]
    by_cases hl : t < T ∧ sig.length < R
    · rw [if_pos hl, if_pos hl]
      exact stuck_pair t p sig rl dl e
    · rw [if_neg hl, if_neg hl]
      exact finish_pair quF quT T P R delT t p sig rl dl e
  | cons ev rest ih =>
    intro t p sig rl dl e
    by_cases hl : t < T ∧ sig.length < R
    case neg =>
      rw [createLoop_not_live _ _ _ hl, createLoop_not_live _ _ _ hl]
      exact finish_pair quF quT T P R delT t p sig rl dl e
    case pos =>
    cases ev with
    | recv msgs df dur =>
      by_cases h0 : msgs.length = 0
      · have hseF : stepEvent ⟨quF, T, P, R, false⟩ ⟨t, p, sig, rl, [], e⟩
            (.recv msgs df dur) = .inr ⟨t + dur, p + 1, sig,
              rl ++ [mkReceiveRequest ⟨quF, T, P, R, false⟩ ⟨t, p, sig, rl, [], e⟩], [],
              e && decide (msgs.length ≤ (mkReceiveRequest ⟨quF, T, P, R, false⟩
                ⟨t, p, sig, rl, [], e⟩).maxNumberOfMessages)⟩ := by
          simp only [stepEvent]
          rw [if_pos h0]
        have hseT : stepEvent ⟨quT, T, P, R, delT⟩ ⟨t, p, sig, rl, dl, e⟩
            (.recv msgs df dur) = .inr ⟨t + dur, p + 1, sig,
              rl ++ [mkReceiveRequest ⟨quF, T, P, R, false⟩ ⟨t, p, sig, rl, [], e⟩], dl,
              e && decide (msgs.length ≤ (mkReceiveRequest ⟨quF, T, P, R, false⟩
                ⟨t, p, sig, rl, [], e⟩).maxNumberOfMessages)⟩ := by
          simp only [stepEvent]
          rw [if_pos h0]
          rfl
        rw [createLoop_cons_of_inr _ _ rest _ _ hl hseF,
            createLoop_cons_of_inr _ _ rest _ _ hl hseT]
        exact ih (t + dur) (p + 1) sig _ dl _
      · by_cases hfin : R ≤ (sig ++ msgs.map bodyOrReady).length
        · have hseF : stepEvent ⟨quF, T, P, R, false⟩ ⟨t, p, sig, rl, [], e⟩
              (.recv msgs df dur) = .inl ⟨.success ⟨sig ++ msgs.map bodyOrReady,
                (sig ++ msgs.map bodyOrReady).length, p + 1, t + dur⟩,
                rl ++ [mkReceiveRequest ⟨quF, T, P, R, false⟩ ⟨t, p, sig, rl, [], e⟩], [],
                e && decide (msgs.length ≤ (mkReceiveRequest ⟨quF, T, P, R, false⟩
                  ⟨t, p, sig, rl, [], e⟩).maxNumberOfMessages), t + dur, p + 1⟩ := by
            simp only [stepEvent, nextSignals]
            rw [if_neg h0, if_pos hfin]
            rfl
          have hseT : stepEvent ⟨quT, T, P, R, delT⟩ ⟨t, p, sig, rl, dl, e⟩
              (.recv msgs df dur) = .inl ⟨.success ⟨sig ++ msgs.map bodyOrReady,
                (sig ++ msgs.map bodyOrReady).length, p + 1, t + dur⟩,
                rl ++ [mkReceiveRequest ⟨quF, T, P, R, false⟩ ⟨t, p, sig, rl, [], e⟩],
                nextDelLog ⟨quT, T, P, R, delT⟩ ⟨t, p, sig, rl, dl, e⟩ (t + dur) msgs,
                e && decide (msgs.length ≤ (mkReceiveRequest ⟨quF, T, P, R, false⟩
                  ⟨t, p, sig, rl, [], e⟩).maxNumberOfMessages), t + dur, p + 1⟩ := by
            simp only [stepEvent, nextSignals]
            rw [if_neg h0, if_pos hfin]
            rfl
          rw [createLoop_cons_of_inl _ _ rest _ _ hl hseF,
              createLoop_cons_of_inl _ _ rest _ _ hl hseT]
          exact ⟨rfl, rfl, rfl, rfl, rfl, rfl⟩
        · have hseF : stepEvent ⟨quF, T, P, R, false⟩ ⟨t, p, sig, rl, [], e⟩
              (.recv msgs df dur) = .inr ⟨t + dur, p + 1, sig ++ msgs.map bodyOrReady,
                rl ++ [mkReceiveRequest ⟨quF, T, P, R, false⟩ ⟨t, p, sig, rl, [], e⟩], [],
                e && decide (msgs.length ≤ (mkReceiveRequest ⟨quF, T, P, R, false⟩
                  ⟨t, p, sig, rl, [], e⟩).maxNumberOfMessages)⟩ := by
            simp only [stepEvent, nextSignals]
            rw [if_neg h0, if_neg hfin]
            rfl
          have hseT : stepEvent ⟨quT, T, P, R, delT⟩ ⟨t, p, sig, rl, dl, e⟩
              (.recv msgs df dur) = .inr ⟨t + dur, p + 1, sig ++ msgs.map bodyOrReady,
                rl ++ [mkReceiveRequest ⟨quF, T, P, R, false⟩ ⟨t, p, sig, rl, [], e⟩],
                nextDelLog ⟨quT, T, P, R, delT⟩ ⟨t, p, sig, rl, dl, e⟩ (t + dur) msgs,
                e && decide (msgs.length ≤ (mkReceiveRequest ⟨quF, T, P, R, false⟩
                  ⟨t, p, sig, rl, [], e⟩).maxNumberOfMessages)⟩ := by
            simp only [stepEvent, nextSignals]
            rw [if_neg h0, if_neg hfin]
            rfl
          rw [createLoop_cons_of_inr _ _ rest _ _ hl hseF,
              createLoop_cons_of_inr _ _ rest _ _ hl hseT]
          exact ih (t + dur) (p + 1) (sig ++ msgs.map bodyOrReady) _ _ _
    | err m dur =>
      by_cases hf : isFatalError m = true
      · have hseF : stepEvent ⟨quF, T, P, R, false⟩ ⟨t, p, sig, rl, [], e⟩
            (.err m dur) = .inl ⟨.fatalError ("SignalWaiter: Fatal error - " ++ m),
              rl ++ [mkReceiveRequest ⟨quF, T, P, R, false⟩ ⟨t, p, sig, rl, [], e⟩], [],
              e, t + dur, p + 1⟩ := by
          simp only [stepEvent]
          rw [if_pos hf]
        have hseT : stepEvent ⟨quT, T, P, R, delT⟩ ⟨t, p, sig, rl, dl, e⟩
            (.err m dur) = .inl ⟨.fatalError ("SignalWaiter: Fatal error - " ++ m),
              rl ++ [mkReceiveRequest ⟨quF, T, P, R, false⟩ ⟨t, p, sig, rl, [], e⟩], dl,
              e, t + dur, p + 1⟩ := by
          simp only [stepEvent]
          rw [if_pos hf]
          rfl
        rw [createLoop_cons_of_inl _ _ rest _ _ hl hseF,
            createLoop_cons_of_inl _ _ rest _ _ hl hseT]
        exact ⟨rfl, rfl, rfl, rfl, rfl, rfl⟩
      · have hseF : stepEvent ⟨quF, T, P, R, false⟩ ⟨t, p, sig, rl, [], e⟩
            (.err m dur) = .inr ⟨t + dur + 5000, p + 1, sig,
              rl ++ [mkReceiveRequest ⟨quF, T, P, R, false⟩ ⟨t, p, sig, rl, [], e⟩], [], e⟩ := by
          simp only [stepEvent]
          rw [if_neg hf]
        have hseT : stepEvent ⟨quT, T, P, R, delT⟩ ⟨t, p, sig, rl, dl, e⟩
            (.err m dur) = .inr ⟨t + dur + 5000, p + 1, sig,
              rl ++ [mkReceiveRequest ⟨quF, T, P, R, false⟩ ⟨t, p, sig, rl, [], e⟩], dl, e⟩ := by
          simp only [stepEvent]
          rw [if_neg hf]
          rfl
        rw [createLoop_cons_of_inr _ _ rest _ _ hl hseF,
            createLoop_cons_of_inr _ _ rest _ _ hl hseT]
        exact ih (t + dur + 5000) (p + 1) sig _ dl e

/-! Claim theorems. -/

/-- C1: for every run in which the queue yields signals totaling exactly
`requiredSignalCount` before the deadline (and never delivers more than a
receive request asked for), `create` succeeds via the in-loop return and
the returned `signalCount` equals `requiredSignalCount` exactly — never
fewer; moreover every receive request issued during any run asks for
exactly `min(10, requiredSignalCount - alreadyReceived)` messages, so a
request never asks beyond what is still needed. -/
theorem claim_C1_exact_count (inputs : WaitForSignalInputs)
    (trace : List PollEvent)
    (henv : (create inputs trace).envOk = true)
    (hyield : reachesRequired (effectiveConfig inputs) trace 0 0 = true) :
    isSuccess (create inputs trace).outcome = true ∧
    sigCount (create inputs trace) = (effectiveConfig inputs).requiredSignalCount ∧
    ∀ r ∈ (create inputs trace).receives,
      r.maxNumberOfMessages =
        min 10 ((effectiveConfig inputs).requiredSignalCount - r.signalsBefore) ∧
      r.signalsBefore + r.maxNumberOfMessages ≤
        (effectiveConfig inputs).requiredSignalCount := by
  have hpos : 0 < (effectiveConfig inputs).requiredSignalCount := by
    simp only [effectiveConfig, jsOrNat]
    split <;> omega
  have h1 := reaches_success (effectiveConfig inputs) trace initState henv hyield hpos
  refine ⟨h1.1, h1.2, ?_⟩
  intro r hr
  have h2 := recvLog_good (effectiveConfig inputs) trace initState
    (by intro x hx; simp [initState] at hx) r hr
  exact ⟨h2.1, h2.2.1⟩

/-- C1 witness: a run that delivers one signal in one poll. -/
theorem claim_C1_witness :
    isSuccess (create ⟨"q", "r", 0, 0, 0, true⟩
      [.recv [⟨some "ready", some "h", some "id"⟩] false 1000]).outcome = true ∧
    sigCount (create ⟨"q", "r", 0, 0, 0, true⟩
      [.recv [⟨some "ready", some "h", some "id"⟩] false 1000]) =
      (effectiveConfig ⟨"q", "r", 0, 0, 0, true⟩).requiredSignalCount := by
  have h := claim_C1_exact_count ⟨"q", "r", 0, 0, 0, true⟩
    [.recv [⟨some "ready", some "h", some "id"⟩] false 1000] rfl rfl
  exact ⟨h.1, h.2.1⟩

/-- C2: whenever the run ends with the timeout throw, the error carries
the configured required count, a received count strictly below it, and an
elapsed time at or past the deadline; and if no event of the trace
delivered any message, the reported received count is 0. -/
theorem claim_C2_timeout_error (inputs : WaitForSignalInputs)
    (trace : List PollEvent) (e req rec p : Nat)
    (h : (create inputs trace).outcome = .timeoutError e req rec p) :
    req = (effectiveConfig inputs).requiredSignalCount ∧
    rec < (effectiveConfig inputs).requiredSignalCount ∧
    (effectiveConfig inputs).timeout ≤ e ∧
    ((∀ ev ∈ trace, eventMsgs ev = []) → rec = 0) := by
  have h1 := timeout_fields (effectiveConfig inputs) trace initState e req rec p h
  refine ⟨h1.1, h1.2.1, h1.2.2, ?_⟩
  intro hm
  have h2 := timeout_received_const (effectiveConfig inputs) trace initState hm e req rec p h
  simpa [initState] using h2

/-- C2 witness: a run that times out after one empty poll. -/
theorem claim_C2_witness :
    1 = (effectiveConfig ⟨"q", "r", 0, 0, 0, true⟩).requiredSignalCount ∧
    0 < (effectiveConfig ⟨"q", "r", 0, 0, 0, true⟩).requiredSignalCount ∧
    (effectiveConfig ⟨"q", "r", 0, 0, 0, true⟩).timeout ≤ 300000 ∧
    (0 : Nat) = 0 := by
  have h := claim_C2_timeout_error ⟨"q", "r", 0, 0, 0, true⟩
    [.recv [] false 300000] 300000 1 0 1 rfl
  exact ⟨h.1, h.2.1, h.2.2.1, h.2.2.2 (by decide)⟩

/-- C3: during a live loop iteration whose receive call throws, a message
matching the fatal classification aborts the run at once — the output is
the wrapped fatal error, the poll counter advanced exactly once for the
failed attempt, the final clock shows no backoff wait, and the rest of the
trace is never consumed; a non-fatal message instead re-enters the loop
with the clock advanced by the attempt duration plus the fixed 5000 ms
backoff and the poll counter incremented. -/
theorem claim_C3_error_classification (cfg : Config) (st : LoopState)
    (e : String) (dur : Nat) (rest : List PollEvent)
    (hlive : loopLive cfg st) :
    (isFatalError e = true →
      createLoop cfg (.err e dur :: rest) st =
        ⟨.fatalError ("SignalWaiter: Fatal error - " ++ e),
         st.recvLog ++ [mkReceiveRequest cfg st], st.delLog, st.envOk,
         st.t + dur, st.pollCount + 1⟩) ∧
    (isFatalError e = false →
      createLoop cfg (.err e dur :: rest) st =
        createLoop cfg rest ⟨st.t + dur + 5000, st.pollCount + 1, st.signals,
          st.recvLog ++ [mkReceiveRequest cfg st], st.delLog, st.envOk⟩) := by
  constructor
  · intro hf
    have hse : stepEvent cfg st (.err e dur) =
        .inl ⟨.fatalError ("SignalWaiter: Fatal error - " ++ e),
          st.recvLog ++ [mkReceiveRequest cfg st], st.delLog, st.envOk,
          st.t + dur, st.pollCount + 1⟩ := by
      simp only [stepEvent]
      rw [if_pos hf]
    exact createLoop_cons_of_inl cfg _ rest st _ hlive hse
  · intro hf
    have hf2 : ¬ isFatalError e = true := by simp [hf]
    have hse : stepEvent cfg st (.err e dur) =
        .inr ⟨st.t + dur + 5000, st.pollCount + 1, st.signals,
          st.recvLog ++ [mkReceiveRequest cfg st], st.delLog, st.envOk⟩ := by
      simp only [stepEvent]
      rw [if_neg hf2]
    exact createLoop_cons_of_inr cfg _ rest st _ hlive hse

/-- C3 witness: a fatal AccessDenied on poll 1 aborts with poll count 1
and no backoff in the final clock. -/
theorem claim_C3_witness :
    createLoop (effectiveConfig ⟨"q", "r", 0, 0, 0, true⟩)
      [.err "AccessDenied" 7] initState =
      ⟨.fatalError ("SignalWaiter: Fatal error - " ++ "AccessDenied"),
       initState.recvLog ++ [mkReceiveRequest
         (effectiveConfig ⟨"q", "r", 0, 0, 0, true⟩) initState],
       initState.delLog, initState.envOk, initState.t + 7,
       initState.pollCount + 1⟩ :=
  (claim_C3_error_classification (effectiveConfig ⟨"q", "r", 0, 0, 0, true⟩)
    initState "AccessDenied" 7 [] (by decide)).1 (by decide)

/-- C4: a failing batched delete changes nothing observable — replacing
every iteration's delete failure by a success yields the identical run
output (same accumulated signals, poll counter, loop continuation, logs,
and outcome). -/
theorem claim_C4_delete_failure_harmless (inputs : WaitForSignalInputs)
    (trace : List PollEvent) :
    create inputs (trace.map clearDeleteFails) = create inputs trace :=
  createLoop_clear (effectiveConfig inputs) trace initState

/-- C5: every receive request issued during a run has a long-poll wait of
exactly `min(pollInterval, floor(remaining_ms / 1000))` seconds, where
`remaining_ms` is the positive time left until the deadline at the start
of that iteration, so the requested wait never exceeds the remaining
budget. -/
theorem claim_C5_wait_capped (inputs : WaitForSignalInputs)
    (trace : List PollEvent) (r : ReceiveRequest)
    (hr : r ∈ (create inputs trace).receives) :
    r.waitTimeSeconds =
      min (effectiveConfig inputs).pollInterval (r.remainingMs / 1000) ∧
    r.waitTimeSeconds * 1000 ≤ r.remainingMs ∧
    0 < r.remainingMs := by
  have h := recvLog_good (effectiveConfig inputs) trace initState
    (by intro x hx; simp [initState] at hx) r hr
  exact ⟨h.2.2.1, h.2.2.2.1, h.2.2.2.2.1⟩

/-- C5 witness: the single request of a one-poll run. -/
theorem claim_C5_witness :
    (⟨1, 10, 0, 300000⟩ : ReceiveRequest).waitTimeSeconds =
      min (effectiveConfig ⟨"q", "r", 0, 0, 0, true⟩).pollInterval
        ((⟨1, 10, 0, 300000⟩ : ReceiveRequest).remainingMs / 1000) ∧
    (⟨1, 10, 0, 300000⟩ : ReceiveRequest).waitTimeSeconds * 1000 ≤
      (⟨1, 10, 0, 300000⟩ : ReceiveRequest).remainingMs ∧
    0 < (⟨1, 10, 0, 300000⟩ : ReceiveRequest).remainingMs :=
  claim_C5_wait_capped ⟨"q", "r", 0, 0, 0, true⟩ [.recv [] false 1000]
    ⟨1, 10, 0, 300000⟩ (by decide)

/-- C6 counterexample: a numeric `timeoutMs` of 0 lies outside
[10000, 3600000], yet the constructor does not throw — the JS `||`
defaulting replaces the falsy 0 by 300000 before the range check runs. -/
theorem claim_C6_counterexample :
    (signalWaiterNew ⟨some "https://sqs/q", none, some 0, none, none, none⟩
      none).isOk = true ∧
    ((0 : Int) < 10000 ∨ 3600000 < (0 : Int)) :=
  ⟨rfl, Or.inl (by decide)⟩

/-- C6 (amended): a missing or empty queueUrl, or a supplied nonzero
numeric `timeoutMs` outside [10000, 3600000], `pollIntervalSeconds`
outside [1, 20], or `requiredSignalCount` outside [1, 100], makes the
constructor throw before any polling starts (a supplied 0 is falsy in JS
and is replaced by the in-range default instead); and a construction with
a truthy queueUrl and all supplied numeric values in range does not throw
for configuration reasons. -/
theorem claim_C6_validation (args : SignalWaiterArgs) (amb : Option String) :
    ((args.queueUrl = none ∨ args.queueUrl = some "") →
      (signalWaiterNew args amb).isOk = false) ∧
    (∀ tm : Int, args.timeoutMs = some tm → tm ≠ 0 →
      (tm < 10000 ∨ 3600000 < tm) → (signalWaiterNew args amb).isOk = false) ∧
    (∀ iv : Int, args.pollIntervalSeconds = some iv → iv ≠ 0 →
      (iv < 1 ∨ 20 < iv) → (signalWaiterNew args amb).isOk = false) ∧
    (∀ rc : Int, args.requiredSignalCount = some rc → rc ≠ 0 →
      (rc < 1 ∨ 100 < rc) → (signalWaiterNew args amb).isOk = false) ∧
    (truthyStr args.queueUrl = true →
      (∀ tm : Int, args.timeoutMs = some tm → 10000 ≤ tm ∧ tm ≤ 3600000) →
      (∀ iv : Int, args.pollIntervalSeconds = some iv → 1 ≤ iv ∧ iv ≤ 20) →
      (∀ rc : Int, args.requiredSignalCount = some rc → 1 ≤ rc ∧ rc ≤ 100) →
      (signalWaiterNew args amb).isOk = true) := by
  unfold signalWaiterNew
  split_ifs with h1 h2 h3 h4 h5 h6 h7
  · refine ⟨fun _ => rfl, fun _ _ _ _ => rfl, fun _ _ _ _ => rfl,
      fun _ _ _ _ => rfl, fun hq _ _ _ => ?_⟩
    simp [h1] at hq
  · refine ⟨fun _ => rfl, fun _ _ _ _ => rfl, fun _ _ _ _ => rfl,
      fun _ _ _ _ => rfl, fun _ htm _ _ => ?_⟩
    cases harg : args.timeoutMs with
    | none => rw [harg] at h2; simp [jsOrOptInt] at h2
    | some tm =>
      have hrange := htm tm harg
      rw [harg] at h2
      simp only [jsOrOptInt] at h2
      by_cases h0 : tm = 0
      · subst h0; omega
      · rw [if_neg h0] at h2; omega
  · refine ⟨fun _ => rfl, fun _ _ _ _ => rfl, fun _ _ _ _ => rfl,
      fun _ _ _ _ => rfl, fun _ htm _ _ => ?_⟩
    cases harg : args.timeoutMs with
    | none => rw [harg] at h3; simp [jsOrOptInt] at h3
    | some tm =>
      have hrange := htm tm harg
      rw [harg] at h3
      simp only [jsOrOptInt] at h3
      by_cases h0 : tm = 0
      · subst h0; omega
      · rw [if_neg h0] at h3; omega
  · refine ⟨fun _ => rfl, fun _ _ _ _ => rfl, fun _ _ _ _ => rfl,
      fun _ _ _ _ => rfl, fun _ _ hiv _ => ?_⟩
    cases harg : args.pollIntervalSeconds with
    | none => rw [harg] at h4; simp [jsOrOptInt] at h4
    | some iv =>
      have hrange := hiv iv harg
      rw [harg] at h4
      simp only [jsOrOptInt] at h4
      by_cases h0 : iv = 0
      · subst h0; omega
      · rw [if_neg h0] at h4; omega
  · refine ⟨fun _ => rfl, fun _ _ _ _ => rfl, fun _ _ _ _ => rfl,
      fun _ _ _ _ => rfl, fun _ _ hiv _ => ?_⟩
    cases harg : args.pollIntervalSeconds with
    | none => rw [harg] at h5; simp [jsOrOptInt] at h5
    | some iv =>
      have hrange := hiv iv harg
      rw [harg] at h5
      simp only [jsOrOptInt] at h5
      by_cases h0 : iv = 0
      · subst h0; omega
      · rw [if_neg h0] at h5; omega
  · refine ⟨fun _ => rfl, fun _ _ _ _ => rfl, fun _ _ _ _ => rfl,
      fun _ _ _ _ => rfl, fun _ _ _ hrc => ?_⟩
    cases harg : args.requiredSignalCount with
    | none => rw [harg] at h6; simp [jsOrOptInt] at h6
    | some rc =>
      have hrange := hrc rc harg
      rw [harg] at h6
      simp only [jsOrOptInt] at h6
      by_cases h0 : rc = 0
      · subst h0; omega
      · rw [if_neg h0] at h6; omega
  · refine ⟨fun _ => rfl, fun _ _ _ _ => rfl, fun _ _ _ _ => rfl,
      fun _ _ _ _ => rfl, fun _ _ _ hrc => ?_⟩
    cases harg : args.requiredSignalCount with
    | none => rw [harg] at h7; simp [jsOrOptInt] at h7
    | some rc =>
      have hrange := hrc rc harg
      rw [harg] at h7
      simp only [jsOrOptInt] at h7
      by_cases h0 : rc = 0
      · subst h0; omega
      · rw [if_neg h0] at h7; omega
  · refine ⟨?_, ?_, ?_, ?_, fun _ _ _ _ => rfl⟩
    · intro hq
      rcases hq with hq | hq
      · exact absurd (by rw [hq]; rfl) h1
      · exact absurd (by rw [hq]; rfl) h1
    · intro tm harg h0 hrange
      rw [harg] at h2 h3
      simp only [jsOrOptInt] at h2 h3
      rw [if_neg h0] at h2 h3
      rcases hrange with hx | hx
      · exact absurd hx h2
      · exact absurd hx h3
    · intro iv harg h0 hrange
      rw [harg] at h4 h5
      simp only [jsOrOptInt] at h4 h5
      rw [if_neg h0] at h4 h5
      rcases hrange with hx | hx
      · exact absurd hx h4
      · exact absurd hx h5
    · intro rc harg h0 hrange
      rw [harg] at h6 h7
      simp only [jsOrOptInt] at h6 h7
      rw [if_neg h0] at h6 h7
      rcases hrange with hx | hx
      · exact absurd hx h6
      · exact absurd hx h7

/-- C6 witness: a nonzero too-small timeout throws; an all-in-range
construction does not throw. -/
theorem claim_C6_witness :
    (signalWaiterNew ⟨some "https://sqs/q", none, some 5000, none, none, none⟩
      none).isOk = false ∧
    (signalWaiterNew ⟨some "https://sqs/q", none, some 20000, some 10, some 2,
      some true⟩ none).isOk = true := by
  constructor
  · exact (claim_C6_validation
      ⟨some "https://sqs/q", none, some 5000, none, none, none⟩ none).2.1
      5000 rfl (by decide) (Or.inl (by decide))
  · refine (claim_C6_validation
      ⟨some "https://sqs/q", none, some 20000, some 10, some 2, some true⟩
      none).2.2.2.2 rfl ?_ ?_ ?_
    · intro tm h
      simp only [Option.some.injEq] at h
      subst h
      exact ⟨by decide, by decide⟩
    · intro iv h
      simp only [Option.some.injEq] at h
      subst h
      exact ⟨by decide, by decide⟩
    · intro rc h
      simp only [Option.some.injEq] at h
      subst h
      exact ⟨by decide, by decide⟩

/-- C7: with `deleteMessages = false` no delete command is ever issued,
while the run is otherwise indistinguishable from the same run with
deletion enabled: identical core outcome (accumulated signals, counts,
result), identical receive requests, monitor, final clock and poll
counter. -/
theorem claim_C7_no_deletes (inputs : WaitForSignalInputs)
    (trace : List PollEvent) (hdel : inputs.deleteMessages = false) :
    (create inputs trace).deletes = [] ∧
    coreOutcome (create inputs trace).outcome =
      coreOutcome (create { inputs with deleteMessages := true } trace).outcome ∧
    (create inputs trace).receives =
      (create { inputs with deleteMessages := true } trace).receives ∧
    (create inputs trace).envOk =
      (create { inputs with deleteMessages := true } trace).envOk ∧
    (create inputs trace).finalT =
      (create { inputs with deleteMessages := true } trace).finalT ∧
    (create inputs trace).finalPolls =
      (create { inputs with deleteMessages := true } trace).finalPolls := by
  have hcfgF : effectiveConfig inputs =
      ⟨inputs.queueUrl, jsOrNat inputs.timeout 300000,
       jsOrNat inputs.pollInterval 10, jsOrNat inputs.requiredSignalCount 1,
       false⟩ := by
    simp [effectiveConfig, hdel]
  have hcfgT : effectiveConfig { inputs with deleteMessages := true } =
      ⟨inputs.queueUrl, jsOrNat inputs.timeout 300000,
       jsOrNat inputs.pollInterval 10, jsOrNat inputs.requiredSignalCount 1,
       true⟩ := by
    simp [effectiveConfig]
  have h := deleteFlag_core inputs.queueUrl inputs.queueUrl
    (jsOrNat inputs.timeout 300000) (jsOrNat inputs.pollInterval 10)
    (jsOrNat inputs.requiredSignalCount 1) true trace 0 0 [] [] [] true
  unfold create
  rw [hcfgF, hcfgT]
  obtain ⟨hA, hB, hC, hD, hE, hF⟩ := h
  exact ⟨hC, hA, hB, hD, hE, hF⟩

/-- C7 witness: a one-signal run with deletion disabled. -/
theorem claim_C7_witness :
    (create ⟨"q", "r", 0, 0, 0, false⟩
      [.recv [⟨some "ready", some "h", some "id"⟩] false 5]).deletes = [] ∧
    coreOutcome (create ⟨"q", "r", 0, 0, 0, false⟩
      [.recv [⟨some "ready", some "h", some "id"⟩] false 5]).outcome =
    coreOutcome (create ⟨"q", "r", 0, 0, 0, true⟩
      [.recv [⟨some "ready", some "h", some "id"⟩] false 5]).outcome := by
  have h := claim_C7_no_deletes ⟨"q", "r", 0, 0, 0, false⟩
    [.recv [⟨some "ready", some "h", some "id"⟩] false 5] rfl
  exact ⟨h.1, h.2.1⟩

/-- C8: processing one receive batch appends, in the order the receive
call returned them, each message's body after the JS default — and that
default maps an absent or empty body to the sentinel "ready". -/
theorem claim_C8_body_accumulation (cfg : Config) (st : LoopState)
    (msgs : List SqsMessage) (df : Bool) (dur : Nat) :
    stepSignals (stepEvent cfg st (.recv msgs df dur)) =
      st.signals ++ msgs.map bodyOrReady ∧
    ∀ rh mid : Option String,
      bodyOrReady ⟨none, rh, mid⟩ = "ready" ∧
      bodyOrReady ⟨some "", rh, mid⟩ = "ready" := by
  constructor
  · by_cases h0 : msgs.length = 0
    · have hnil : msgs = [] := List.length_eq_zero.mp h0
      subst hnil
      simp [stepEvent, stepSignals]
    · by_cases hfin : cfg.requiredSignalCount ≤ (nextSignals st msgs).length
      · simp only [stepEvent]
        rw [if_neg h0, if_pos hfin]
        simp [stepSignals, nextSignals]
      · simp only [stepEvent]
        rw [if_neg h0, if_neg hfin]
        simp [stepSignals, nextSignals]
  · intro rh mid
    exact ⟨rfl, rfl⟩

/-- C9: for every trace whose events each take at least 1 ms and at most
`D` ms of wall-clock time, the run's final clock stays below
`timeout + D + 5000` (one iteration's duration plus the fixed transient
backoff beyond the deadline) and the number of polls performed never
exceeds the timeout in ms — the loop cannot run forever because each
iteration advances the clock and the condition re-checks it against the
deadline. -/
theorem claim_C9_terminates (inputs : WaitForSignalInputs)
    (trace : List PollEvent) (D : Nat)
    (hub : ∀ ev ∈ trace, eventDur ev ≤ D)
    (hlb : ∀ ev ∈ trace, 1 ≤ eventDur ev) :
    (create inputs trace).finalT < (effectiveConfig inputs).timeout + D + 5000 ∧
    (create inputs trace).finalPolls ≤ (effectiveConfig inputs).timeout := by
  constructor
  · exact finalT_bound (effectiveConfig inputs) D trace initState hub
      (by simp [initState])
  · exact finalPolls_bound (effectiveConfig inputs)
      ((effectiveConfig inputs).timeout) trace initState hlb
      (by simp [initState])

/-- C9 witness: bounds for a concrete one-event trace. -/
theorem claim_C9_witness :
    (create ⟨"q", "r", 0, 0, 0, true⟩ [.recv [] false 1000]).finalT <
      (effectiveConfig ⟨"q", "r", 0, 0, 0, true⟩).timeout + 1000 + 5000 ∧
    (create ⟨"q", "r", 0, 0, 0, true⟩ [.recv [] false 1000]).finalPolls ≤
      (effectiveConfig ⟨"q", "r", 0, 0, 0, true⟩).timeout :=
  claim_C9_terminates ⟨"q", "r", 0, 0, 0, true⟩ [.recv [] false 1000] 1000
    (by decide) (by decide)

/-- C10: in a run where no receive ever returned more messages than
requested, the accumulated signal count after any prefix of the
environment trace never exceeds `requiredSignalCount`, and the post-loop
fallback success return of source line 168 is unreachable — the run
either succeeds from inside the loop or throws. -/
theorem claim_C10_count_invariant (inputs : WaitForSignalInputs)
    (trace : List PollEvent)
    (henv : (create inputs trace).envOk = true) :
    (∀ pre : List PollEvent, pre <+: trace →
      sigCount (create inputs pre) ≤
        (effectiveConfig inputs).requiredSignalCount) ∧
    isFallback (create inputs trace).outcome = false := by
  have hpos : 0 < (effectiveConfig inputs).requiredSignalCount := by
    simp only [effectiveConfig, jsOrNat]
    split <;> omega
  constructor
  · intro pre hpre
    obtain ⟨q, rfl⟩ := hpre
    simp only [create] at henv ⊢
    by_cases hstuck : ∃ st2,
        (createLoop (effectiveConfig inputs) pre initState).outcome = .stuck st2
    · obtain ⟨st2, hs⟩ := hstuck
      have heq := stuck_inversion (effectiveConfig inputs) pre initState st2 hs
      have happ := createLoop_append_stuck (effectiveConfig inputs) pre q
        initState st2 heq
      rw [happ] at henv
      have hst2 : st2.envOk = true := envOk_mono (effectiveConfig inputs) q st2 henv
      have henvpre : (createLoop (effectiveConfig inputs) pre initState).envOk
          = true := by
        rw [heq]
        simpa [stuckOutput] using hst2
      rcases count_invariant (effectiveConfig inputs) pre initState
        (Or.inl hpos) with ⟨hcount, _⟩ | hbad
      · exact hcount
      · rw [henvpre] at hbad
        exact absurd hbad (by simp)
    · push_neg at hstuck
      have happ := createLoop_append_done (effectiveConfig inputs) pre q
        initState hstuck
      rw [happ] at henv
      rcases count_invariant (effectiveConfig inputs) pre initState
        (Or.inl hpos) with ⟨hcount, _⟩ | hbad
      · exact hcount
      · rw [henv] at hbad
        exact absurd hbad (by simp)
  · simp only [create] at henv ⊢
    rcases count_invariant (effectiveConfig inputs) trace initState
      (Or.inl hpos) with ⟨_, hfb⟩ | hbad
    · exact hfb
    · rw [henv] at hbad
      exact absurd hbad (by simp)

/-- C10 witness: the invariant at a concrete run and its empty prefix. -/
theorem claim_C10_witness :
    sigCount (create ⟨"q", "r", 0, 0, 0, true⟩ []) ≤
      (effectiveConfig ⟨"q", "r", 0, 0, 0, true⟩).requiredSignalCount ∧
    isFallback (create ⟨"q", "r", 0, 0, 0, true⟩
      [.recv [⟨some "ready", some "h", some "id"⟩] false 5]).outcome = false := by
  have h := claim_C10_count_invariant ⟨"q", "r", 0, 0, 0, true⟩
    [.recv [⟨some "ready", some "h", some "id"⟩] false 5] rfl
  exact ⟨h.1 [] (List.nil_prefix), h.2⟩
